import Mathlib

/-!
# WHIST backend — verification of the watch-state / schedule / seen-in core

Shallow embedding of the core logic of the WHIST backend
(`backend/routers/episodes.py`, `schedule.py`, `people.py`, `backend/models.py`).

Tables are lists of rows; database ids are `Int` (SQL INTEGER); dates and
timestamps are ISO strings compared lexicographically, exactly as the SQLite
TEXT columns are compared in the source.  Fallible operations (ones that can
raise an HTTP error or propagate an upstream fetch failure before committing)
return `Except`; since the session commits once at the end of each operation,
an error result models "nothing was committed" and carries no state.
-/

/-- Decidable equality of `Except` results, so concrete runs can be checked by
`decide`. -/
instance {ε α : Type} [DecidableEq ε] [DecidableEq α] : DecidableEq (Except ε α)
  | .error x, .error y =>
    if h : x = y then isTrue (congrArg Except.error h)
    else isFalse fun hc => h (Except.error.inj hc)
  | .error _, .ok _ => isFalse fun hc => Except.noConfusion hc
  | .ok _, .error _ => isFalse fun hc => Except.noConfusion hc
  | .ok x, .ok y =>
    if h : x = y then isTrue (congrArg Except.ok h)
    else isFalse fun hc => h (Except.ok.inj hc)

namespace Whist

/-- Row of the `shows` table (fields the core logic reads). -/
structure Show where
  id : Int
  tmdbId : Int
  title : String
  posterPath : Option String
  userStatus : Option String
  lastWatchedAt : Option String
  deriving Repr, DecidableEq

/-- Row of the `episodes` table. -/
structure Episode where
  showId : Int
  tmdbShowId : Int
  seasonNumber : Int
  episodeNumber : Int
  title : Option String
  airDate : Option String
  watched : Bool
  watchedAt : Option String
  deriving Repr, DecidableEq

/-- Row of the `people` table. -/
structure Person where
  tmdbId : Int
  name : String
  profilePath : Option String
  creditsCachedAt : Option String
  deriving Repr, DecidableEq

/-- Row of the `person_credits` table. -/
structure PersonCredit where
  personTmdbId : Int
  showTmdbId : Int
  title : String
  character : String
  type : String
  deriving Repr, DecidableEq

/-- Python truthiness of an optional string (`if s:`): `None` and `""` are falsy. -/
def pyTruthy : Option String → Bool
  | none => false
  | some s => !(s == "")

/-- `_resolve_date` from `routers/episodes.py`: the literal `"today"` resolves to
the current date, any other string is stored verbatim, `None` stays `None`. -/
def resolveDate (today : String) : Option String → Option String
  | some s => if s = "today" then some today else some s
  | none => none

/-- Lexicographic code-point comparison (`≤`) of character lists: the order
SQLite's BINARY collation and Python's string comparison give to the ASCII ISO
dates and timestamps this system stores. -/
def strLe : List Char → List Char → Bool
  | [], _ => true
  | _ :: _, [] => false
  | x :: xs, y :: ys =>
    if x.toNat < y.toNat then true
    else if y.toNat < x.toNat then false
    else strLe xs ys

/-- Strict lexicographic code-point comparison (`<`) of character lists. -/
def strLt : List Char → List Char → Bool
  | [], [] => false
  | [], _ :: _ => true
  | _ :: _, [] => false
  | x :: xs, y :: ys =>
    if x.toNat < y.toNat then true
    else if y.toNat < x.toNat then false
    else strLt xs ys

/-- `a <= b` on TEXT columns. -/
def strLeB (a b : String) : Bool := strLe a.data b.data

/-- `a < b` on TEXT columns. -/
def strLtB (a b : String) : Bool := strLt a.data b.data

theorem strLe_total : ∀ (a b : List Char), strLe a b = true ∨ strLe b a = true
  | [], _ => Or.inl rfl
  | _ :: _, [] => Or.inr rfl
  | x :: xs, y :: ys => by
    by_cases h1 : x.toNat < y.toNat
    · left
      simp [strLe, h1]
    · by_cases h2 : y.toNat < x.toNat
      · right
        simp [strLe, h2]
      · rcases strLe_total xs ys with h | h
        · left
          simp [strLe, h1, h2, h]
        · right
          simp [strLe, h1, h2, h]

theorem strLe_trans : ∀ (a b c : List Char),
    strLe a b = true → strLe b c = true → strLe a c = true
  | [], _, _, _, _ => rfl
  | _ :: _, [], _, hab, _ => by simp [strLe] at hab
  | _ :: _, _ :: _, [], _, hbc => by simp [strLe] at hbc
  | x :: xs, y :: ys, z :: zs, hab, hbc => by
    simp only [strLe] at hab hbc ⊢
    by_cases h1 : x.toNat < y.toNat
    · by_cases h2 : y.toNat < z.toNat
      · have h3 : x.toNat < z.toNat := Nat.lt_trans h1 h2
        simp [h3]
      · by_cases h3 : z.toNat < y.toNat
        · simp [h2, h3] at hbc
        · have h4 : x.toNat < z.toNat := by omega
          simp [h4]
    · by_cases h4 : y.toNat < x.toNat
      · simp [h1, h4] at hab
      · by_cases h2 : y.toNat < z.toNat
        · have h5 : x.toNat < z.toNat := by omega
          simp [h5]
        · by_cases h3 : z.toNat < y.toNat
          · simp [h2, h3] at hbc
          · have h5 : ¬(x.toNat < z.toNat) := by omega
            have h6 : ¬(z.toNat < x.toNat) := by omega
            simp only [if_neg h1, if_neg h4] at hab
            simp only [if_neg h2, if_neg h3] at hbc
            simp only [if_neg h5, if_neg h6]
            exact strLe_trans xs ys zs hab hbc

/-- The `ORDER BY season_number, episode_number` order used by every
"next episode" query in the source. -/
abbrev epLe (a b : Episode) : Prop :=
  a.seasonNumber < b.seasonNumber ∨
    (a.seasonNumber = b.seasonNumber ∧ a.episodeNumber ≤ b.episodeNumber)

theorem epLe_refl (a : Episode) : epLe a a := Or.inr ⟨rfl, le_refl _⟩

theorem epLe_total (a b : Episode) : epLe a b ∨ epLe b a := by
  unfold epLe; omega

theorem epLe_trans {a b c : Episode} (h1 : epLe a b) (h2 : epLe b c) : epLe a c := by
  unfold epLe at *; omega

/-- `ORDER BY season_number, episode_number LIMIT 1`: the first row of the list
in `(season, episode)` order (ties cannot arise for a single show thanks to the
unique constraint on the triple). -/
def pickNext : List Episode → Option Episode
  | [] => none
  | e :: rest =>
    match pickNext rest with
    | none => some e
    | some m => if epLe e m then some e else some m

theorem pickNext_eq_none (l : List Episode) : pickNext l = none ↔ l = [] := by
  cases l with
  | nil => simp [pickNext]
  | cons a rest =>
    simp only [pickNext]
    constructor
    · intro h
      cases hr : pickNext rest with
      | none => simp [hr] at h
      | some m => simp only [hr] at h; split at h <;> simp at h
    · intro h; exact absurd h (by simp)

theorem pickNext_mem (l : List Episode) (e : Episode) (he : pickNext l = some e) : e ∈ l := by
  induction l generalizing e with
  | nil => simp [pickNext] at he
  | cons a rest ih =>
    simp only [pickNext] at he
    cases hr : pickNext rest with
    | none => simp only [hr] at he; cases he; exact List.mem_cons_self _ _
    | some m =>
      simp only [hr] at he
      by_cases hle : epLe a m
      · rw [if_pos hle] at he
        rw [← Option.some.inj he]
        exact List.mem_cons_self _ _
      · rw [if_neg hle] at he
        rw [← Option.some.inj he]
        exact List.mem_cons_of_mem _ (ih _ hr)

theorem pickNext_min (l : List Episode) (e : Episode) (he : pickNext l = some e) :
    ∀ x ∈ l, epLe e x := by
  induction l generalizing e with
  | nil => simp [pickNext] at he
  | cons a rest ih =>
    intro x hx
    simp only [pickNext] at he
    cases hr : pickNext rest with
    | none =>
      simp only [hr] at he; cases he
      have hrest : rest = [] := (pickNext_eq_none rest).mp hr
      subst hrest
      rcases List.mem_cons.mp hx with h | h
      · subst h; exact epLe_refl _
      · simp at h
    | some m =>
      simp only [hr] at he
      by_cases hle : epLe a m
      · rw [if_pos hle] at he
        have hea : a = e := Option.some.inj he
        rcases List.mem_cons.mp hx with h | h
        · rw [h, ← hea]; exact epLe_refl _
        · rw [← hea]; exact epLe_trans hle (ih _ hr x h)
      · rw [if_neg hle] at he
        have hem : m = e := Option.some.inj he
        rcases List.mem_cons.mp hx with h | h
        · rw [h, ← hem]
          rcases epLe_total a m with h1 | h2
          · exact absurd h1 hle
          · exact h2
        · rw [← hem]; exact ih _ hr x h

/-! ## Catalog cache populator (`_ensure_episodes_cached`, `routers/episodes.py`) -/

/-- One entry of a TMDB season's `episodes` array (the fields the populator reads). -/
structure EpEntry where
  episodeNumber : Option Int
  name : Option String
  airDate : Option String
  deriving Repr, DecidableEq

/-- The TMDB client as seen by `_ensure_episodes_cached` for one show:
`getShow` is `tmdb.get_show` (`none` = the request raised), yielding the list of
`season_number`s of `details["seasons"]`; `getSeason` is `tmdb.get_season`
(`none` = the request raised). -/
structure Provider where
  getShow : Option (List Int)
  getSeason : Int → Option (List EpEntry)

/-- Does any `episodes` row exist for this catalog show id? (the populator's guard). -/
def episodeRowCount (sid : Int) (eps : List Episode) : Nat :=
  (eps.filter (fun e => decide (e.tmdbShowId = sid))).length

/-- Insert one TMDB season entry, skipping entries without an episode number and
duplicates of rows already present (the inner loop of `_ensure_episodes_cached`). -/
def insertSeasonEp (sh : Show) (sn : Int) (cur : List Episode) (ep : EpEntry) : List Episode :=
  match ep.episodeNumber with
  | none => cur
  | some n =>
    if cur.any (fun e =>
        decide (e.tmdbShowId = sh.tmdbId ∧ e.seasonNumber = sn ∧ e.episodeNumber = n)) then
      cur
    else
      cur ++ [⟨sh.id, sh.tmdbId, sn, n, ep.name, ep.airDate, false, none⟩]

/-- Process one `details["seasons"]` entry: skip season 0 (specials), fetch the
season (a failed fetch is swallowed: season skipped), insert its episodes.
The second component counts provider fetches performed. -/
def cacheSeason (p : Provider) (sh : Show) (acc : List Episode × Nat) (sn : Int) :
    List Episode × Nat :=
  if sn = 0 then acc
  else
    match p.getSeason sn with
    | none => (acc.1, acc.2 + 1)
    | some entries => (entries.foldl (insertSeasonEp sh sn) acc.1, acc.2 + 1)

/-- `_ensure_episodes_cached(show, db)`: no-op if any episode row exists for the
show's catalog id; otherwise fetch the show (failure propagates — `.error`),
then every non-special season (per-season failures swallowed).  Returns the new
`episodes` table and the number of provider fetches performed. -/
def ensureEpisodesCached (p : Provider) (sh : Show) (eps : List Episode) :
    Except Unit (List Episode × Nat) :=
  if 0 < episodeRowCount sh.tmdbId eps then .ok (eps, 0)
  else
    match p.getShow with
    | none => .error ()
    | some seasons => .ok (seasons.foldl (cacheSeason p sh) (eps, 1))

/-! ## Progress summary (`get_show_progress`, `routers/episodes.py`) -/

/-- Round half-to-even to one decimal place, the behaviour of Python's
`round(x, 1)` on exactly-representable values.  `f` is the floor of `q * 10`,
computed as floor-division of the numerator by the denominator so that concrete
values evaluate. -/
def round1 (q : ℚ) : ℚ :=
  let x : ℚ := q * 10
  let f : ℤ := x.num.fdiv x.den
  let r : ℚ := x - f
  if r < 1/2 then (f : ℚ) / 10
  else if 1/2 < r then (f + 1 : ℚ) / 10
  else if f % 2 = 0 then (f : ℚ) / 10 else (f + 1 : ℚ) / 10

/-- The `next_unwatched` payload of the progress endpoint. -/
structure NextUnwatched where
  seasonNumber : Int
  episodeNumber : Int
  title : Option String
  deriving Repr, DecidableEq

/-- Response of `GET /shows/{id}/progress`. -/
structure ProgressOut where
  total : Nat
  watched : Nat
  percent : ℚ
  nextUnwatched : Option NextUnwatched
  deriving Repr, DecidableEq

/-- `get_show_progress` (after the show-tracked check): total and watched
counts, percent guarded by `total > 0`, and the `next_unwatched` query.  That
query carries no `LIMIT` yet ends in `scalar_one_or_none()`, which returns the
row when the result has exactly one row, `None` when it has none, and raises
`MultipleResultsFound` as soon as the show has two or more unwatched rows —
modelled by the `.error` arm (the `ORDER BY` is immaterial for 0 or 1 rows). -/
def getShowProgress (sid : Int) (eps : List Episode) : Except Unit ProgressOut :=
  let total := episodeRowCount sid eps
  let watchedN := (eps.filter (fun e => decide (e.tmdbShowId = sid) && e.watched)).length
  let percent : ℚ := if 0 < total then round1 ((watchedN : ℚ) / (total : ℚ) * 100) else 0
  match eps.filter (fun e => decide (e.tmdbShowId = sid) && !e.watched) with
  | [] => .ok ⟨total, watchedN, percent, none⟩
  | [e] => .ok ⟨total, watchedN, percent, some ⟨e.seasonNumber, e.episodeNumber, e.title⟩⟩
  | _ => .error ()

/-! ## Watch-state mutator (`mark_episode_watched` / `mark_bulk_watched`) -/

/-- Request body of `POST /episodes/watched`. -/
structure WatchedRequest where
  tmdbShowId : Int
  seasonNumber : Int
  episodeNumber : Int
  watched : Bool
  watchedAt : Option String
  deriving Repr, DecidableEq

/-- Request body of `POST /episodes/watched/bulk` (`seasonNumber = none` = whole show). -/
structure BulkWatchedRequest where
  tmdbShowId : Int
  seasonNumber : Option Int
  watchedAt : Option String
  deriving Repr, DecidableEq

/-- The store state touched by the mutators. -/
structure DB where
  shows : List Show
  episodes : List Episode
  deriving Repr, DecidableEq

/-- `mark_episode_watched`: 404 if the episode row is absent; otherwise set
`watched`, set `watched_at` to the resolved date when marking watched and to
`null` when unwatching, and on marking watched bump the owning show's
`last_watched_at` to the current timestamp.  Returns the response pair
`(watched, watched_at)` along with the new state. -/
def markEpisodeWatched (today now : String) (body : WatchedRequest) (db : DB) :
    Except Unit (DB × Bool × Option String) :=
  match db.episodes.find? (fun e =>
      decide (e.tmdbShowId = body.tmdbShowId ∧ e.seasonNumber = body.seasonNumber ∧
        e.episodeNumber = body.episodeNumber)) with
  | none => .error ()
  | some ep =>
    let newAt := if body.watched then resolveDate today body.watchedAt else none
    let episodes' := db.episodes.map (fun e =>
      if e.tmdbShowId = body.tmdbShowId ∧ e.seasonNumber = body.seasonNumber ∧
          e.episodeNumber = body.episodeNumber then
        { e with watched := body.watched, watchedAt := newAt }
      else e)
    let shows' :=
      if body.watched then
        db.shows.map (fun s =>
          if s.id = ep.showId then { s with lastWatchedAt := some now } else s)
      else db.shows
    .ok (⟨shows', episodes'⟩, body.watched, newAt)

/-- Does this episode match a bulk request's scope and is it still unwatched?
(the `WHERE` clause of `mark_bulk_watched`). -/
def bulkMatches (body : BulkWatchedRequest) (e : Episode) : Bool :=
  decide (e.tmdbShowId = body.tmdbShowId) && !e.watched &&
    (match body.seasonNumber with
     | some sn => decide (e.seasonNumber = sn)
     | none => true)

/-- `mark_bulk_watched`: select the still-unwatched episodes in scope; zero
matches returns 0 with the state untouched; otherwise set them all watched with
the same resolved date, set the show's `last_watched_at` once, and return the
count of episodes changed. -/
def markBulkWatched (today now : String) (body : BulkWatchedRequest) (db : DB) : DB × Nat :=
  let toMark := db.episodes.filter (bulkMatches body)
  if toMark.isEmpty then (db, 0)
  else
    let resolved := resolveDate today body.watchedAt
    let episodes' := db.episodes.map (fun e =>
      if bulkMatches body e then { e with watched := true, watchedAt := resolved } else e)
    let shows' := db.shows.map (fun s =>
      if s.tmdbId = body.tmdbShowId then { s with lastWatchedAt := some now } else s)
    (⟨shows', episodes'⟩, toMark.length)

/-! ## Schedule ranker (`get_schedule_today`, `routers/schedule.py`) -/

/-- One schedule card (`_ep_card`). -/
structure Card where
  showTmdbId : Int
  showTitle : String
  posterPath : Option String
  userStatus : Option String
  nextSeason : Int
  nextEpisode : Int
  nextTitle : Option String
  nextAirDate : Option String
  newCount : Nat
  deriving Repr, DecidableEq

/-- `_ep_card(show, ep, new_count)`. -/
def mkCard (sh : Show) (e : Episode) (n : Nat) : Card :=
  ⟨sh.tmdbId, sh.title, sh.posterPath, sh.userStatus,
   e.seasonNumber, e.episodeNumber, e.title, e.airDate, n⟩

/-- The four mutually-exclusive schedule sections. -/
inductive Bucket where
  | airingNow
  | keepWatching
  | upNext
  | pickUpAgain
  deriving Repr, DecidableEq

/-- `lwa and lwa >= cutoff` on the nullable ISO-string column. -/
def lwaGe (o : Option String) (cutoff : String) : Bool :=
  match o with
  | none => false
  | some s => pyTruthy (some s) && strLeB cutoff s

/-- `lwa and lwa < cutoff` on the nullable ISO-string column. -/
def lwaLt (o : Option String) (cutoff : String) : Bool :=
  match o with
  | none => false
  | some s => pyTruthy (some s) && strLtB s cutoff

/-- `air_date IS NOT NULL AND air_date >= cutoff_new AND air_date <= today`. -/
def inNewWindow (tod cutoffNew : String) (e : Episode) : Bool :=
  match e.airDate with
  | none => false
  | some d => strLeB cutoffNew d && strLeB d tod

/-- `air_date IS NOT NULL AND air_date <= today`. -/
def hasAired (tod : String) (e : Episode) : Bool :=
  match e.airDate with
  | none => false
  | some d => strLeB d tod

/-- Unwatched episode of the given show. -/
def unwatchedOf (sid : Int) (e : Episode) : Bool :=
  decide (e.tmdbShowId = sid) && !e.watched

/-- The "Airing Now" check: an airing show with unwatched episodes whose air
date falls in the last-7-days window gets a card for the first such episode
with the window count. -/
def airingCardOf (tod cutoffNew : String) (eps : List Episode) (sh : Show) : Option Card :=
  if sh.userStatus.getD "" = "airing" then
    if 0 < (eps.filter (fun e => unwatchedOf sh.tmdbId e && inNewWindow tod cutoffNew e)).length then
      (pickNext (eps.filter (fun e => unwatchedOf sh.tmdbId e && inNewWindow tod cutoffNew e))).map
        (fun e => mkCard sh e
          (eps.filter (fun e => unwatchedOf sh.tmdbId e && inNewWindow tod cutoffNew e)).length)
    else none
  else none

/-- The "Keep Watching" check: binging and active within the cutoff; card for
the first unwatched episode. -/
def keepCardOf (cutoffActive : String) (eps : List Episode) (sh : Show) : Option Card :=
  if sh.userStatus.getD "" = "binging" ∧ lwaGe sh.lastWatchedAt cutoffActive then
    (pickNext (eps.filter (unwatchedOf sh.tmdbId))).map (fun e => mkCard sh e 0)
  else none

/-- The "Up Next" check: binging; card for the first unwatched episode. -/
def upCardOf (eps : List Episode) (sh : Show) : Option Card :=
  if sh.userStatus.getD "" = "binging" then
    (pickNext (eps.filter (unwatchedOf sh.tmdbId))).map (fun e => mkCard sh e 0)
  else none

/-- The "Pick Up Again" check: airing/binging, idle past the cutoff; card for
the first unwatched already-aired episode. -/
def pickCardOf (tod cutoffIdle : String) (eps : List Episode) (sh : Show) : Option Card :=
  if (sh.userStatus.getD "" = "airing" ∨ sh.userStatus.getD "" = "binging") ∧
      lwaLt sh.lastWatchedAt cutoffIdle then
    (pickNext (eps.filter (fun e => unwatchedOf sh.tmdbId e && hasAired tod e))).map
      (fun e => mkCard sh e 0)
  else none

/-- The body of the per-show loop of `get_schedule_today`: try the four section
conditions in priority order (the `continue` chain) and return the first
section (with its card) that matches, if any. -/
def processShow (tod cutoffNew cutoffActive cutoffIdle : String) (eps : List Episode)
    (sh : Show) : Option (Bucket × Card) :=
  match airingCardOf tod cutoffNew eps sh with
  | some c => some (Bucket.airingNow, c)
  | none =>
    match keepCardOf cutoffActive eps sh with
    | some c => some (Bucket.keepWatching, c)
    | none =>
      match upCardOf eps sh with
      | some c => some (Bucket.upNext, c)
      | none => (pickCardOf tod cutoffIdle eps sh).map (fun c => (Bucket.pickUpAgain, c))

/-- Response of `GET /schedule/today`. -/
structure ScheduleOut where
  airingNow : List Card
  keepWatching : List Card
  upNext : List Card
  pickUpAgain : List Card
  deriving Repr, DecidableEq

/-- `get_schedule_today`: iterate the (already ordered) show list and route each
show into at most one section. -/
def scheduleToday (tod cutoffNew cutoffActive cutoffIdle : String) (eps : List Episode) :
    List Show → ScheduleOut
  | [] => ⟨[], [], [], []⟩
  | sh :: rest =>
    let out := scheduleToday tod cutoffNew cutoffActive cutoffIdle eps rest
    match processShow tod cutoffNew cutoffActive cutoffIdle eps sh with
    | none => out
    | some (Bucket.airingNow, c) => { out with airingNow := c :: out.airingNow }
    | some (Bucket.keepWatching, c) => { out with keepWatching := c :: out.keepWatching }
    | some (Bucket.upNext, c) => { out with upNext := c :: out.upNext }
    | some (Bucket.pickUpAgain, c) => { out with pickUpAgain := c :: out.pickUpAgain }

/-- Number of cards in a section that belong to a given show. -/
def countShow (l : List Card) (sid : Int) : Nat :=
  (l.filter (fun c => decide (c.showTmdbId = sid))).length

/-! ## Seen-in resolver (`routers/people.py`) -/

/-- One entry of TMDB's combined-credits `cast` array (the fields the populator
reads).  `id` is the show/movie catalog id (`none` = key absent). -/
structure CreditEntry where
  id : Option Int
  mediaType : Option String
  name : Option String
  title : Option String
  character : Option String
  deriving Repr, DecidableEq

/-- Python's `a or b` chain on optional strings (`None` and `""` are falsy). -/
def pyStrOr (o : Option String) (fallback : String) : String :=
  match o with
  | some s => if s = "" then fallback else s
  | none => fallback

/-- `credit.get("id")` is usable: present and truthy (`0` is falsy in Python). -/
def usableId : Option Int → Bool
  | none => false
  | some i => decide (i ≠ 0)

/-- The filter of `_ensure_person_credits_cached`: skip entries without a usable
id or whose media type (default `"tv"`) is not `tv`/`movie`. -/
def creditKept (c : CreditEntry) : Bool :=
  usableId c.id && (c.mediaType.getD "tv" == "tv" || c.mediaType.getD "tv" == "movie")

/-- Insert one combined-credits entry for `person`, skipping filtered-out entries
and duplicates per `(person, show)` (the loop body of
`_ensure_person_credits_cached`). -/
def insertCredit (person : Person) (acc : List PersonCredit) (c : CreditEntry) :
    List PersonCredit :=
  if !creditKept c then acc
  else
    match c.id with
    | none => acc
    | some sid =>
      if acc.any (fun r => decide (r.personTmdbId = person.tmdbId ∧ r.showTmdbId = sid)) then
        acc
      else
        acc ++ [⟨person.tmdbId, sid, pyStrOr c.name (pyStrOr c.title "Unknown"),
                (c.character.getD ""), c.mediaType.getD "tv"⟩]

/-- `_ensure_person_credits_cached(person, db)`: no-op when `credits_cached_at`
is truthy; otherwise fetch combined credits (`none` = the request raised, which
propagates before anything is committed), insert the filtered, deduplicated
credit rows, and set `credits_cached_at` — all committed together at the end.
Returns the new `people` and `person_credits` tables and the fetch count. -/
def ensurePersonCreditsCached (fetch : Option (List CreditEntry)) (now : String)
    (person : Person) (people : List Person) (credits : List PersonCredit) :
    Except Unit (List Person × List PersonCredit × Nat) :=
  if pyTruthy person.creditsCachedAt then .ok (people, credits, 0)
  else
    match fetch with
    | none => .error ()
    | some entries =>
      let credits' := entries.foldl (insertCredit person) credits
      let people' := people.map (fun q =>
        if q.tmdbId = person.tmdbId then { q with creditsCachedAt := some now } else q)
      .ok (people', credits', 1)

/-- `SELECT DISTINCT tmdb_show_id FROM episodes WHERE watched` — membership test. -/
def isWatchedShow (eps : List Episode) (sid : Int) : Bool :=
  eps.any (fun e => decide (e.tmdbShowId = sid) && e.watched)

/-- The row filter of `_seen_in_counts`: credit of one of the requested people,
for a watched show, not the excluded show. -/
def seenInRowKept (personIds : List Int) (excludeShowId : Option Int) (eps : List Episode)
    (c : PersonCredit) : Bool :=
  decide (c.personTmdbId ∈ personIds) && isWatchedShow eps c.showTmdbId &&
    (match excludeShowId with
     | some x => decide (c.showTmdbId ≠ x)
     | none => true)

/-- `_seen_in_counts(person_ids, db, exclude_show_id)`: group the qualifying
credit rows by person and count distinct show ids per person (`GROUP BY` +
`COUNT(DISTINCT ...)`); people with no qualifying rows are absent from the
result, as in the SQL. -/
def seenInCounts (personIds : List Int) (excludeShowId : Option Int)
    (credits : List PersonCredit) (eps : List Episode) : List (Int × Nat) :=
  if personIds.isEmpty then []
  else
    let rows := credits.filter (seenInRowKept personIds excludeShowId eps)
    let persons := (rows.map (·.personTmdbId)).dedup
    persons.map (fun p =>
      (p, (((rows.filter (fun r => decide (r.personTmdbId = p))).map (·.showTmdbId)).dedup).length))

/-- `seen_in_map.get(pid, 0)` — how both call sites read the counts dict. -/
def lookupCount (m : List (Int × Nat)) (pid : Int) : Nat :=
  match m.find? (fun x => decide (x.1 = pid)) with
  | some x => x.2
  | none => 0

/-- One entry of the `seen_in` response array. -/
structure SeenInEntry where
  tmdbId : Int
  title : String
  character : String
  type : String
  posterPath : Option String
  deriving Repr, DecidableEq

/-- The `ORDER BY person_credits.title` order. -/
def creditTitleLe (a b : PersonCredit) : Prop := strLeB a.title b.title = true

instance : DecidableRel creditTitleLe :=
  fun a b => inferInstanceAs (Decidable (strLeB a.title b.title = true))

instance : IsTotal PersonCredit creditTitleLe :=
  ⟨fun a b => strLe_total a.title.data b.title.data⟩

instance : IsTrans PersonCredit creditTitleLe :=
  ⟨fun _ _ _ h1 h2 => strLe_trans _ _ _ h1 h2⟩

/-- The outer join to `shows` for the poster: `none` when the show is not
locally tracked (or has no poster). -/
def posterOf (shows : List Show) (sid : Int) : Option String :=
  (shows.find? (fun s => decide (s.tmdbId = sid))).bind (·.posterPath)

/-- The read part of `seen_in`: the person's credits whose show id is in the
watched-show set, ordered by title, annotated with the locally-known poster. -/
def seenInQuery (pid : Int) (credits : List PersonCredit) (shows : List Show)
    (eps : List Episode) : List SeenInEntry :=
  let rows := credits.filter (fun c =>
    decide (c.personTmdbId = pid) && isWatchedShow eps c.showTmdbId)
  (rows.insertionSort creditTitleLe).map (fun c =>
    ⟨c.showTmdbId, c.title, c.character, c.type, posterOf shows c.showTmdbId⟩)

/-- `GET /people/{id}/seen-in`: 404 when the person is unknown locally, then
ensure the person's credits are cached, then run the seen-in query on the
(possibly extended) credits table. -/
def seenIn (fetch : Option (List CreditEntry)) (now : String) (pid : Int)
    (people : List Person) (credits : List PersonCredit) (shows : List Show)
    (eps : List Episode) : Except Unit (List SeenInEntry) :=
  match people.find? (fun q => decide (q.tmdbId = pid)) with
  | none => .error ()
  | some person =>
    match ensurePersonCreditsCached fetch now person people credits with
    | .error e => .error e
    | .ok (_, credits', _) => .ok (seenInQuery pid credits' shows eps)

/-! ## Claim-side definitions -/

/-- The season floor as the spec describes it (for comparison with the code,
which has no such floor): the highest season number containing at least one
watched episode of the show, defaulting to 1 if none. -/
def seasonFloorSpec (sid : Int) (eps : List Episode) : Int :=
  ((eps.filter (fun e => decide (e.tmdbShowId = sid) && e.watched)).map
    (·.seasonNumber)).foldl max 1

/-- The per-person count the spec describes: the number of distinct show ids
among this person's credit rows whose show has at least one watched episode,
omitting the excluded show id. -/
def seenInCountSpec (pid : Int) (excludeShowId : Option Int) (credits : List PersonCredit)
    (eps : List Episode) : Nat :=
  (((credits.filter (fun c =>
      decide (c.personTmdbId = pid) && isWatchedShow eps c.showTmdbId &&
        (match excludeShowId with
         | some x => decide (c.showTmdbId ≠ x)
         | none => true))).map (·.showTmdbId)).dedup).length

/-- Invariant of the `episodes` table: an unwatched episode has no watch date. -/
def watchedAtInv (eps : List Episode) : Prop :=
  ∀ e ∈ eps, e.watched = false → e.watchedAt = none

/-! ## Concrete fixtures used by witnesses and counterexamples -/

/-- A show with one cached episode row (used to exercise the populate guard). -/
def fixShow : Show := ⟨1, 100, "Alpha", some "/p100", some "airing", none⟩

def fixEpisode : Episode := ⟨1, 100, 1, 1, some "Pilot", some "2020-01-01", false, none⟩

/-- A provider whose season-2 fetch fails while seasons 1 and 3 succeed. -/
def isolProvider : Provider where
  getShow := some [1, 2, 3]
  getSeason := fun n =>
    if n = 1 then
      some [⟨some 1, some "s1e1", some "2020-01-01"⟩, ⟨some 2, some "s1e2", some "2020-01-08"⟩]
    else if n = 3 then some [⟨some 1, some "s3e1", some "2021-01-01"⟩]
    else none

/-! ## C10 — progress on a show with zero cached episodes -/

/-- C10: for a tracked show with zero cached episode rows the progress summary
succeeds (the zero-row `next_unwatched` query returns `None`, no raise) with
`total 0, watched 0, percent 0, next_unwatched none`: the percent division is
guarded by the `total > 0` check, so no division is attempted. -/
theorem progress_zero_rows (sid : Int) (eps : List Episode)
    (h : episodeRowCount sid eps = 0) :
    getShowProgress sid eps = .ok ⟨0, 0, 0, none⟩ := by
  have hnil : eps.filter (fun e => decide (e.tmdbShowId = sid)) = [] :=
    List.eq_nil_of_length_eq_zero h
  have hall : ∀ e ∈ eps, decide (e.tmdbShowId = sid) = false := by
    intro e he
    have := List.filter_eq_nil_iff.mp hnil e he
    simpa using this
  have h2 : eps.filter (fun e => decide (e.tmdbShowId = sid) && e.watched) = [] := by
    apply List.filter_eq_nil_iff.mpr
    intro e he
    simp [hall e he]
  have h3 : eps.filter (fun e => decide (e.tmdbShowId = sid) && !e.watched) = [] := by
    apply List.filter_eq_nil_iff.mpr
    intro e he
    simp [hall e he]
  unfold getShowProgress
  rw [h, h2, h3]
  rfl

/-- Witness for C10 at a concrete input: another show's episode row does not
count towards this show's progress. -/
theorem progress_zero_rows_witness :
    episodeRowCount 999 [fixEpisode] = 0 ∧
      getShowProgress 999 [fixEpisode] = .ok ⟨0, 0, 0, none⟩ :=
  ⟨by decide, progress_zero_rows 999 [fixEpisode] (by decide)⟩

/-! ## C2 — episode-cache population is a no-op once any row exists -/

/-- C2: if any episode row exists for the show's catalog id the populate
operation is a no-op — zero provider fetches, episode table unchanged; in
particular a second run after a first run that cached at least one row fetches
nothing and changes nothing, whatever the provider now returns. -/
theorem ensureEpisodes_idempotent :
    (∀ (p : Provider) (sh : Show) (eps : List Episode),
        0 < episodeRowCount sh.tmdbId eps →
        ensureEpisodesCached p sh eps = .ok (eps, 0)) ∧
    (∀ (p p2 : Provider) (sh : Show) (eps eps' : List Episode) (k : Nat),
        ensureEpisodesCached p sh eps = .ok (eps', k) →
        0 < episodeRowCount sh.tmdbId eps' →
        ensureEpisodesCached p2 sh eps' = .ok (eps', 0)) := by
  constructor
  · intro p sh eps h
    unfold ensureEpisodesCached
    rw [if_pos h]
  · intro p p2 sh eps eps' k _ h
    unfold ensureEpisodesCached
    rw [if_pos h]

/-- The episode table produced by running the populate operation with
`isolProvider` on an empty table. -/
def isolRows : List Episode :=
  [⟨1, 100, 1, 1, some "s1e1", some "2020-01-01", false, none⟩,
   ⟨1, 100, 1, 2, some "s1e2", some "2020-01-08", false, none⟩,
   ⟨1, 100, 3, 1, some "s3e1", some "2021-01-01", false, none⟩]

/-- Witness for C2: a second populate run over the table produced by a first
run (which cached seasons 1 and 3) does nothing, even against a provider that
now answers every season. -/
theorem ensureEpisodes_idempotent_witness :
    ensureEpisodesCached isolProvider fixShow [] = .ok (isolRows, 4) ∧
      0 < episodeRowCount fixShow.tmdbId isolRows ∧
      ensureEpisodesCached ⟨some [1, 2, 3], fun _ => some []⟩ fixShow isolRows =
        .ok (isolRows, 0) :=
  ⟨by decide, by decide,
   ensureEpisodes_idempotent.2 isolProvider ⟨some [1, 2, 3], fun _ => some []⟩ fixShow []
     isolRows 4 (by decide) (by decide)⟩

/-! ## C7 — a failed season fetch is isolated -/

/-- C7: once the show fetch itself succeeds the populate call never raises, and
at the concrete input where the season-2 fetch fails while seasons 1 and 3
succeed, the resulting episode rows are exactly those of seasons 1 and 3. -/
theorem seasonFailure_isolated :
    (∀ (p : Provider) (sh : Show) (eps : List Episode) (seasons : List Int),
        p.getShow = some seasons →
        ∃ r, ensureEpisodesCached p sh eps = .ok r) ∧
    ensureEpisodesCached isolProvider fixShow [] = .ok (isolRows, 4) := by
  constructor
  · intro p sh eps seasons hp
    unfold ensureEpisodesCached
    by_cases h : 0 < episodeRowCount sh.tmdbId eps
    · exact ⟨(eps, 0), by rw [if_pos h]⟩
    · refine ⟨seasons.foldl (cacheSeason p sh) (eps, 1), ?_⟩
      rw [if_neg h, hp]
  · decide

/-- Witness for C7's hypothesis at a concrete provider. -/
theorem seasonFailure_isolated_witness :
    ∃ r, ensureEpisodesCached isolProvider fixShow [] = .ok r :=
  seasonFailure_isolated.1 isolProvider fixShow [] [1, 2, 3] rfl

/-! ## C3 — `watched = false` implies `watched_at = null` -/

theorem mem_insertSeasonEp {sh : Show} {sn : Int} {cur : List Episode} {ep : EpEntry}
    {e : Episode} (he : e ∈ insertSeasonEp sh sn cur ep) :
    e ∈ cur ∨ (e.watched = false ∧ e.watchedAt = none) := by
  unfold insertSeasonEp at he
  cases hn : ep.episodeNumber with
  | none => simp only [hn] at he; exact Or.inl he
  | some n =>
    simp only [hn] at he
    split at he
    · exact Or.inl he
    · rcases List.mem_append.mp he with h | h
      · exact Or.inl h
      · simp only [List.mem_singleton] at h
        subst h
        exact Or.inr ⟨rfl, rfl⟩

theorem mem_foldl_insertSeasonEp {sh : Show} {sn : Int} :
    ∀ (entries : List EpEntry) (cur : List Episode) (e : Episode),
      e ∈ entries.foldl (insertSeasonEp sh sn) cur →
      e ∈ cur ∨ (e.watched = false ∧ e.watchedAt = none) := by
  intro entries
  induction entries with
  | nil => intro cur e he; exact Or.inl he
  | cons c cs ih =>
    intro cur e he
    rcases ih _ _ he with h | h
    · exact mem_insertSeasonEp h
    · exact Or.inr h

theorem mem_cacheSeason {p : Provider} {sh : Show} {acc : List Episode × Nat} {sn : Int}
    {e : Episode} (he : e ∈ (cacheSeason p sh acc sn).1) :
    e ∈ acc.1 ∨ (e.watched = false ∧ e.watchedAt = none) := by
  unfold cacheSeason at he
  split at he
  · exact Or.inl he
  · cases hs : p.getSeason sn with
    | none => rw [hs] at he; exact Or.inl he
    | some entries =>
      rw [hs] at he
      exact mem_foldl_insertSeasonEp entries acc.1 e he

theorem mem_foldl_cacheSeason {p : Provider} {sh : Show} :
    ∀ (seasons : List Int) (acc : List Episode × Nat) (e : Episode),
      e ∈ (seasons.foldl (cacheSeason p sh) acc).1 →
      e ∈ acc.1 ∨ (e.watched = false ∧ e.watchedAt = none) := by
  intro seasons
  induction seasons with
  | nil => intro acc e he; exact Or.inl he
  | cons sn rest ih =>
    intro acc e he
    rcases ih _ _ he with h | h
    · exact mem_cacheSeason h
    · exact Or.inr h

/-- Every row of a populated episode table either was already present or was
inserted unwatched with a null watch date. -/
theorem ensureEpisodes_mem {p : Provider} {sh : Show} {eps : List Episode}
    {r : List Episode × Nat} (h : ensureEpisodesCached p sh eps = .ok r) :
    ∀ e ∈ r.1, e ∈ eps ∨ (e.watched = false ∧ e.watchedAt = none) := by
  unfold ensureEpisodesCached at h
  split at h
  · cases h
    intro e he
    exact Or.inl he
  · cases hs : p.getShow with
    | none => rw [hs] at h; exact absurd h (by simp)
    | some seasons =>
      rw [hs] at h
      cases h
      intro e he
      exact mem_foldl_cacheSeason seasons (eps, 1) e he

/-- C3: marking an episode unwatched always nulls `watched_at`, whatever its
prior value and whatever `watched_at` policy the caller supplied; and every
episode-mutating operation (single mark, bulk mark, cache populate) preserves
the invariant that `watched = false` implies `watched_at = null`. -/
theorem watched_false_implies_null :
    (∀ (today now : String) (body : WatchedRequest) (db : DB) (r : DB × Bool × Option String),
        body.watched = false →
        markEpisodeWatched today now body db = .ok r →
        ∀ e ∈ r.1.episodes,
          e.tmdbShowId = body.tmdbShowId → e.seasonNumber = body.seasonNumber →
          e.episodeNumber = body.episodeNumber → e.watchedAt = none) ∧
    (∀ (today now : String) (body : WatchedRequest) (db : DB) (r : DB × Bool × Option String),
        watchedAtInv db.episodes →
        markEpisodeWatched today now body db = .ok r → watchedAtInv r.1.episodes) ∧
    (∀ (today now : String) (body : BulkWatchedRequest) (db : DB),
        watchedAtInv db.episodes →
        watchedAtInv (markBulkWatched today now body db).1.episodes) ∧
    (∀ (p : Provider) (sh : Show) (eps : List Episode) (r : List Episode × Nat),
        watchedAtInv eps → ensureEpisodesCached p sh eps = .ok r → watchedAtInv r.1) := by
  refine ⟨?_, ?_, ?_, ?_⟩
  · intro today now body db r hw h e he h1 h2 h3
    unfold markEpisodeWatched at h
    cases hf : db.episodes.find? (fun e =>
        decide (e.tmdbShowId = body.tmdbShowId ∧ e.seasonNumber = body.seasonNumber ∧
          e.episodeNumber = body.episodeNumber)) with
    | none => rw [hf] at h; exact absurd h (by simp)
    | some ep =>
      rw [hf] at h
      cases h
      simp only [List.mem_map] at he
      obtain ⟨x, _, hx⟩ := he
      by_cases hc : x.tmdbShowId = body.tmdbShowId ∧ x.seasonNumber = body.seasonNumber ∧
          x.episodeNumber = body.episodeNumber
      · rw [if_pos hc] at hx
        rw [← hx]
        simp [hw]
      · rw [if_neg hc] at hx
        rw [← hx] at h1 h2 h3
        exact absurd ⟨h1, h2, h3⟩ hc
  · intro today now body db r hinv h e he hw
    unfold markEpisodeWatched at h
    cases hf : db.episodes.find? (fun e =>
        decide (e.tmdbShowId = body.tmdbShowId ∧ e.seasonNumber = body.seasonNumber ∧
          e.episodeNumber = body.episodeNumber)) with
    | none => rw [hf] at h; exact absurd h (by simp)
    | some ep =>
      rw [hf] at h
      cases h
      simp only [List.mem_map] at he
      obtain ⟨x, hxm, hx⟩ := he
      by_cases hc : x.tmdbShowId = body.tmdbShowId ∧ x.seasonNumber = body.seasonNumber ∧
          x.episodeNumber = body.episodeNumber
      · rw [if_pos hc] at hx
        cases hbw : body.watched with
        | true => rw [← hx] at hw; simp [hbw] at hw
        | false => rw [← hx]; simp [hbw]
      · rw [if_neg hc] at hx
        rw [← hx] at hw ⊢
        exact hinv x hxm hw
  · intro today now body db hinv e he hw
    simp only [markBulkWatched] at he
    split at he
    · exact hinv e he hw
    · simp only [List.mem_map] at he
      obtain ⟨x, hxm, hx⟩ := he
      by_cases hc : bulkMatches body x = true
      · rw [if_pos hc] at hx
        rw [← hx] at hw
        simp at hw
      · rw [if_neg hc] at hx
        rw [← hx] at hw ⊢
        exact hinv x hxm hw
  · intro p sh eps r hinv h e he hw
    rcases ensureEpisodes_mem h e he with hm | ⟨_, hn⟩
    · exact hinv e hm hw
    · exact hn

/-- A small concrete store: one tracked show, one unwatched and one watched
episode. -/
def fixDB : DB :=
  ⟨[fixShow],
   [fixEpisode, ⟨1, 100, 1, 2, some "E2", some "2020-01-08", true, some "2024-01-01"⟩]⟩

/-- Witness for C3: the invariant holds on the concrete store and is preserved
by a concrete bulk-mark call. -/
theorem watched_false_implies_null_witness :
    watchedAtInv fixDB.episodes ∧
      watchedAtInv (markBulkWatched "2024-02-02" "2024-02-02T10:00:00+00:00"
        ⟨100, none, some "today"⟩ fixDB).1.episodes :=
  ⟨by unfold watchedAtInv; decide,
   watched_false_implies_null.2.2.1 "2024-02-02" "2024-02-02T10:00:00+00:00"
     ⟨100, none, some "today"⟩ fixDB (by unfold watchedAtInv; decide)⟩

/-! ## C4 — bulk-mark-watched -/

/-- The episodes a bulk call is meant to affect, as the claim states it: the
currently-unwatched episodes of the show, restricted to the given season when
one is supplied. -/
def bulkScope (body : BulkWatchedRequest) (e : Episode) : Prop :=
  e.tmdbShowId = body.tmdbShowId ∧ e.watched = false ∧
    (body.seasonNumber = none ∨ body.seasonNumber = some e.seasonNumber)

instance (body : BulkWatchedRequest) (e : Episode) : Decidable (bulkScope body e) := by
  unfold bulkScope
  infer_instance

theorem bulkMatches_eq_decide (body : BulkWatchedRequest) (e : Episode) :
    bulkMatches body e = decide (bulkScope body e) := by
  have h : bulkMatches body e = true ↔ bulkScope body e := by
    unfold bulkMatches bulkScope
    obtain ⟨bshow, bseason, bdate⟩ := body
    cases bseason with
    | none =>
      simp only [Bool.and_true, Bool.and_eq_true, decide_eq_true_eq, Bool.not_eq_true']
      tauto
    | some sn =>
      simp only [Bool.and_eq_true, decide_eq_true_eq, Bool.not_eq_true', Option.some.injEq]
      constructor
      · rintro ⟨⟨ha, hb⟩, hc⟩
        exact ⟨ha, hb, Or.inr hc.symm⟩
      · rintro ⟨ha, hb, hc | hc⟩
        · exact absurd hc (by simp)
        · exact ⟨⟨ha, hb⟩, hc.symm⟩
  by_cases hb : bulkMatches body e = true
  · rw [hb, (decide_eq_true (h.mp hb)).symm]
  · have hb' : bulkMatches body e = false := by simpa using hb
    rw [hb']
    symm
    rw [decide_eq_false_iff_not]
    intro hp
    exact hb (h.mpr hp)

/-- C4: the bulk call returns the number of episodes in scope (the
currently-unwatched episodes of the given season, or of the whole show when no
season is given); zero matches returns 0 with the store untouched and no error;
and when at least one episode matches, exactly the in-scope episodes become
watched — all with the same resolved date — every other episode row is
untouched, and the show's `last_watched_at` is set (in one update) to the
current timestamp while all other show rows are untouched. -/
theorem bulkMark_spec (today now : String) (body : BulkWatchedRequest) (db : DB) :
    (markBulkWatched today now body db).2 =
        db.episodes.countP (fun e => decide (bulkScope body e)) ∧
    (db.episodes.countP (fun e => decide (bulkScope body e)) = 0 →
        markBulkWatched today now body db = (db, 0)) ∧
    (0 < db.episodes.countP (fun e => decide (bulkScope body e)) →
        (markBulkWatched today now body db).1.episodes.length = db.episodes.length ∧
        (∀ i, ∀ hi : i < db.episodes.length,
          (markBulkWatched today now body db).1.episodes[i]? =
            some (if bulkScope body db.episodes[i] then
                { db.episodes[i] with
                    watched := true,
                    watchedAt := resolveDate today body.watchedAt }
              else db.episodes[i])) ∧
        (markBulkWatched today now body db).1.shows.length = db.shows.length ∧
        (∀ i, ∀ hi : i < db.shows.length,
          (markBulkWatched today now body db).1.shows[i]? =
            some (if db.shows[i].tmdbId = body.tmdbShowId then
                { db.shows[i] with lastWatchedAt := some now }
              else db.shows[i]))) := by
  have hfil : db.episodes.filter (bulkMatches body) =
      db.episodes.filter (fun e => decide (bulkScope body e)) := by
    apply List.filter_congr
    intro e _
    exact bulkMatches_eq_decide body e
  have hcount : db.episodes.countP (fun e => decide (bulkScope body e)) =
      (db.episodes.filter (bulkMatches body)).length := by
    rw [hfil]
    exact List.countP_eq_length_filter _ _
  refine ⟨?_, ?_, ?_⟩
  · rw [hcount]
    simp only [markBulkWatched]
    split
    · rename_i hEmpty
      rw [List.isEmpty_iff] at hEmpty
      simp [hEmpty]
    · rfl
  · intro h0
    rw [hcount] at h0
    have hEmpty : (db.episodes.filter (bulkMatches body)).isEmpty = true := by
      rw [List.isEmpty_iff]
      exact List.eq_nil_of_length_eq_zero h0
    simp only [markBulkWatched]
    rw [if_pos hEmpty]
  · intro hpos
    rw [hcount] at hpos
    have hEmpty : ¬((db.episodes.filter (bulkMatches body)).isEmpty = true) := by
      rw [List.isEmpty_iff]
      intro hnil
      rw [hnil] at hpos
      simp at hpos
    simp only [markBulkWatched]
    rw [if_neg hEmpty]
    refine ⟨by simp, ?_, by simp, ?_⟩
    · intro i hi
      rw [List.getElem?_map]
      rw [List.getElem?_eq_getElem hi]
      simp only [Option.map_some']
      congr 1
      rw [bulkMatches_eq_decide]
      by_cases hc : bulkScope body db.episodes[i]
      · rw [if_pos hc, if_pos (by simpa using hc)]
      · rw [if_neg hc, if_neg (by simpa using hc)]
    · intro i hi
      rw [List.getElem?_map]
      rw [List.getElem?_eq_getElem hi]
      simp only [Option.map_some']

/-- Witness for C4 at a concrete input: one unwatched season-1 episode matches,
so the count is positive, the matched episode becomes watched with the verbatim
date, and the show's `last_watched_at` is set. -/
theorem bulkMark_spec_witness :
    0 < fixDB.episodes.countP
        (fun e => decide (bulkScope ⟨100, some 1, some "2024-03-03"⟩ e)) ∧
      (markBulkWatched "2024-03-01" "2024-03-01T09:00:00+00:00"
          ⟨100, some 1, some "2024-03-03"⟩ fixDB).1.episodes.length =
        fixDB.episodes.length :=
  ⟨by decide,
   ((bulkMark_spec "2024-03-01" "2024-03-01T09:00:00+00:00"
       ⟨100, some 1, some "2024-03-03"⟩ fixDB).2.2 (by decide)).1⟩

/-! ## C1 — the code has no season floor -/

/-- A binging show whose season 1 still has an unwatched episode while a
season-2 episode is already watched. -/
def floorShow : Show :=
  ⟨2, 500, "Floorless", none, some "binging", some "2024-01-01T00:00:00+00:00"⟩

def floorEps : List Episode :=
  [⟨2, 500, 1, 1, some "s1e1", some "2020-01-01", false, none⟩,
   ⟨2, 500, 2, 1, some "s2e1", some "2020-06-01", true, some "2024-01-01"⟩,
   ⟨2, 500, 2, 2, some "s2e2", some "2020-06-08", false, none⟩]

/-- Show 500 with exactly one unwatched episode (s1e1) while s2e1 is watched:
the progress endpoint's single-row `next_unwatched` query returns it without
raising. -/
def floorProgressEps : List Episode :=
  [⟨2, 500, 1, 1, some "s1e1", some "2020-01-01", false, none⟩,
   ⟨2, 500, 2, 1, some "s2e1", some "2020-06-01", true, some "2024-01-01"⟩]

/-- C1 counterexample: with a season-2 episode watched the spec's season floor
is 2, yet the schedule's Up Next card surfaces the season-1 episode s1e1
(at `floorEps`), and the progress endpoint — on a store where its no-`LIMIT`
query returns rather than raising, i.e. exactly one unwatched row — also
returns s1e1 as `next_unwatched` (at `floorProgressEps`): the candidate is not
restricted to seasons ≥ the floor, so the unwatched s1e1 does resurface. -/
theorem seasonFloor_cex :
    seasonFloorSpec 500 floorEps = 2 ∧
    (scheduleToday "2024-06-01" "2024-05-25" "2024-05-18" "2024-05-02" floorEps
        [floorShow]).upNext =
      [⟨500, "Floorless", none, some "binging", 1, 1, some "s1e1", some "2020-01-01", 0⟩] ∧
    seasonFloorSpec 500 floorProgressEps = 2 ∧
    (∃ r, getShowProgress 500 floorProgressEps = .ok r ∧
      r.nextUnwatched = some ⟨1, 1, some "s1e1"⟩) ∧
    ¬((2 : Int) ≤ 1) :=
  ⟨by decide, by decide, by decide, ⟨_, rfl, rfl⟩, by decide⟩

/-- A show whose season 1 (episodes 1–10) is fully watched and whose season-2
episodes 1 and 2 are unwatched. -/
def doneS1Eps : List Episode :=
  [⟨3, 600, 1, 1, some "e1", some "2020-01-01", true, some "2024-01-01"⟩,
   ⟨3, 600, 1, 2, some "e2", some "2020-01-02", true, some "2024-01-01"⟩,
   ⟨3, 600, 1, 3, some "e3", some "2020-01-03", true, some "2024-01-01"⟩,
   ⟨3, 600, 1, 4, some "e4", some "2020-01-04", true, some "2024-01-01"⟩,
   ⟨3, 600, 1, 5, some "e5", some "2020-01-05", true, some "2024-01-01"⟩,
   ⟨3, 600, 1, 6, some "e6", some "2020-01-06", true, some "2024-01-01"⟩,
   ⟨3, 600, 1, 7, some "e7", some "2020-01-07", true, some "2024-01-01"⟩,
   ⟨3, 600, 1, 8, some "e8", some "2020-01-08", true, some "2024-01-01"⟩,
   ⟨3, 600, 1, 9, some "e9", some "2020-01-09", true, some "2024-01-01"⟩,
   ⟨3, 600, 1, 10, some "e10", some "2020-01-10", true, some "2024-01-01"⟩,
   ⟨3, 600, 2, 1, some "s2e1", some "2020-06-01", false, none⟩,
   ⟨3, 600, 2, 2, some "s2e2", some "2020-06-08", false, none⟩]

/-- The binging show owning `doneS1Eps`, idle since January. -/
def doneS1Show : Show :=
  ⟨3, 600, "Marathon", none, some "binging", some "2024-01-01T00:00:00+00:00"⟩

/-- C1 (amended): the code applies no season floor.  The schedule's
next-episode queries (`LIMIT 1`, as in the Up Next section) return the globally
first unwatched episode of the show in `(season, episode)` order over all
seasons; the progress endpoint's `next_unwatched` query, which lacks a `LIMIT`,
returns the sole unwatched episode when exactly one exists — again with no
season restriction — and raises whenever two or more unwatched rows exist.  In
particular, with all of season 1 watched and s2e1, s2e2 unwatched, the
schedule's Up Next card shows s2e1 (there is no earlier unwatched episode)
while the progress endpoint raises on that two-row store. -/
theorem nextEpisode_no_floor :
    (∀ (eps : List Episode) (sh : Show) (c : Card),
        upCardOf eps sh = some c →
        ∃ e ∈ eps, e.tmdbShowId = sh.tmdbId ∧ e.watched = false ∧
          c.nextSeason = e.seasonNumber ∧ c.nextEpisode = e.episodeNumber ∧
          ∀ x ∈ eps, x.tmdbShowId = sh.tmdbId → x.watched = false → epLe e x) ∧
    (∀ (sid : Int) (eps : List Episode) (e : Episode),
        eps.filter (fun x => decide (x.tmdbShowId = sid) && !x.watched) = [e] →
        ∃ r, getShowProgress sid eps = .ok r ∧
          r.nextUnwatched = some ⟨e.seasonNumber, e.episodeNumber, e.title⟩) ∧
    (∀ (sid : Int) (eps : List Episode),
        2 ≤ (eps.filter (fun x => decide (x.tmdbShowId = sid) && !x.watched)).length →
        getShowProgress sid eps = .error ()) ∧
    (scheduleToday "2024-06-01" "2024-05-25" "2024-05-18" "2024-05-02" doneS1Eps
        [doneS1Show]).upNext =
      [⟨600, "Marathon", none, some "binging", 2, 1, some "s2e1", some "2020-06-01", 0⟩] ∧
    getShowProgress 600 doneS1Eps = .error () := by
  refine ⟨?_, ?_, ?_, by decide, by decide⟩
  · intro eps sh c h
    unfold upCardOf at h
    split at h
    · rcases Option.map_eq_some'.mp h with ⟨e, hpe, hce⟩
      have hmem := pickNext_mem _ _ hpe
      have hmin := pickNext_min _ _ hpe
      rw [List.mem_filter] at hmem
      obtain ⟨hin, hcond⟩ := hmem
      unfold unwatchedOf at hcond
      simp only [Bool.and_eq_true, decide_eq_true_eq, Bool.not_eq_true'] at hcond
      refine ⟨e, hin, hcond.1, hcond.2, ?_, ?_, ?_⟩
      · rw [← hce]
        rfl
      · rw [← hce]
        rfl
      · intro x hx h1 h2
        apply hmin
        rw [List.mem_filter]
        refine ⟨hx, ?_⟩
        simp [unwatchedOf, h1, h2]
    · exact absurd h (by simp)
  · intro sid eps e hf
    unfold getShowProgress
    rw [hf]
    exact ⟨_, rfl, rfl⟩
  · intro sid eps h2
    unfold getShowProgress
    cases hf : eps.filter (fun x => decide (x.tmdbShowId = sid) && !x.watched) with
    | nil =>
      rw [hf] at h2
      simp at h2
    | cons a t =>
      cases t with
      | nil =>
        rw [hf] at h2
        simp at h2
      | cons b t2 =>
        rfl

/-- Witness for the amended C1: the single-unwatched-row store, where the
progress endpoint returns (no raise) and surfaces the below-floor s1e1. -/
theorem nextEpisode_no_floor_witness :
    ∃ r, getShowProgress 500 floorProgressEps = .ok r ∧
      r.nextUnwatched = some ⟨1, 1, some "s1e1"⟩ :=
  nextEpisode_no_floor.2.1 500 floorProgressEps
    ⟨2, 500, 1, 1, some "s1e1", some "2020-01-01", false, none⟩ (by decide)

/-! ## C9 — the four schedule sections are mutually exclusive -/

theorem cardOpt_showId {sh : Show} {X : List Episode} {n : Nat} {c : Card}
    (h : (pickNext X).map (fun e => mkCard sh e n) = some c) : c.showTmdbId = sh.tmdbId := by
  rcases Option.map_eq_some'.mp h with ⟨e, _, he⟩
  rw [← he]
  rfl

theorem airingCardOf_showId {tod cN : String} {eps : List Episode} {sh : Show} {c : Card}
    (h : airingCardOf tod cN eps sh = some c) : c.showTmdbId = sh.tmdbId := by
  unfold airingCardOf at h
  split at h
  · split at h
    · exact cardOpt_showId h
    · exact absurd h (by simp)
  · exact absurd h (by simp)

theorem keepCardOf_showId {cA : String} {eps : List Episode} {sh : Show} {c : Card}
    (h : keepCardOf cA eps sh = some c) : c.showTmdbId = sh.tmdbId := by
  unfold keepCardOf at h
  split at h
  · exact cardOpt_showId h
  · exact absurd h (by simp)

theorem upCardOf_showId {eps : List Episode} {sh : Show} {c : Card}
    (h : upCardOf eps sh = some c) : c.showTmdbId = sh.tmdbId := by
  unfold upCardOf at h
  split at h
  · exact cardOpt_showId h
  · exact absurd h (by simp)

theorem pickCardOf_showId {tod cI : String} {eps : List Episode} {sh : Show} {c : Card}
    (h : pickCardOf tod cI eps sh = some c) : c.showTmdbId = sh.tmdbId := by
  unfold pickCardOf at h
  split at h
  · exact cardOpt_showId h
  · exact absurd h (by simp)

/-- Any card produced for a show carries that show's catalog id. -/
theorem processShow_showId {tod cN cA cI : String} {eps : List Episode} {sh : Show}
    {b : Bucket} {c : Card} (h : processShow tod cN cA cI eps sh = some (b, c)) :
    c.showTmdbId = sh.tmdbId := by
  unfold processShow at h
  split at h
  · rename_i heq
    cases h
    exact airingCardOf_showId heq
  · split at h
    · rename_i heq
      cases h
      exact keepCardOf_showId heq
    · split at h
      · rename_i heq
        cases h
        exact upCardOf_showId heq
      · rcases Option.map_eq_some'.mp h with ⟨c0, heq, hc0⟩
        cases hc0
        exact pickCardOf_showId heq

/-- Total number of cards across the four sections belonging to one show id. -/
def scheduleCount (out : ScheduleOut) (sid : Int) : Nat :=
  countShow out.airingNow sid + countShow out.keepWatching sid +
    countShow out.upNext sid + countShow out.pickUpAgain sid

theorem countShow_cons (c : Card) (l : List Card) (sid : Int) :
    countShow (c :: l) sid = (if c.showTmdbId = sid then 1 else 0) + countShow l sid := by
  unfold countShow
  by_cases h : c.showTmdbId = sid <;> simp [List.filter_cons, h, Nat.add_comm]

theorem scheduleToday_count_notin (tod cN cA cI : String) (eps : List Episode) :
    ∀ (shows : List Show) (sid : Int), sid ∉ shows.map Show.tmdbId →
      scheduleCount (scheduleToday tod cN cA cI eps shows) sid = 0 := by
  intro shows
  induction shows with
  | nil => intro sid _; rfl
  | cons sh rest ih =>
    intro sid h
    simp only [List.map_cons, List.mem_cons] at h
    push_neg at h
    obtain ⟨hne, hrest⟩ := h
    simp only [scheduleToday]
    cases hp : processShow tod cN cA cI eps sh with
    | none => exact ih sid hrest
    | some bc =>
      obtain ⟨b, c⟩ := bc
      have hcne : ¬(c.showTmdbId = sid) := by
        rw [processShow_showId hp]
        exact fun hh => hne hh.symm
      cases b <;>
        simp only [scheduleCount, countShow_cons, if_neg hcne, Nat.zero_add] <;>
        exact ih sid hrest

/-- C9: every tracked show appears in at most one of the four schedule sections
(`airing_now`, `keep_watching`, `up_next`, `pick_up_again`): the per-show loop
places a show only in the first section whose condition matches. -/
theorem schedule_sections_exclusive (tod cN cA cI : String) (eps : List Episode)
    (shows : List Show) (hnd : (shows.map Show.tmdbId).Nodup) (sid : Int) :
    scheduleCount (scheduleToday tod cN cA cI eps shows) sid ≤ 1 := by
  induction shows with
  | nil => exact Nat.le_succ 0
  | cons sh rest ih =>
    rw [List.map_cons, List.nodup_cons] at hnd
    obtain ⟨hnotin, hrest⟩ := hnd
    simp only [scheduleToday]
    cases hp : processShow tod cN cA cI eps sh with
    | none => exact ih hrest
    | some bc =>
      obtain ⟨b, c⟩ := bc
      have hc := processShow_showId hp
      by_cases hsid : sid = sh.tmdbId
      · subst hsid
        have h0 : scheduleCount (scheduleToday tod cN cA cI eps rest) sh.tmdbId = 0 :=
          scheduleToday_count_notin tod cN cA cI eps rest sh.tmdbId hnotin
        simp only [scheduleCount] at h0
        cases b <;>
          simp only [scheduleCount, countShow_cons, hc, if_pos trivial] <;> omega
      · have hcne : ¬(c.showTmdbId = sid) := by
          rw [hc]
          exact fun hh => hsid hh.symm
        cases b <;>
          simp only [scheduleCount, countShow_cons, if_neg hcne, Nat.zero_add] <;>
          exact ih hrest

/-- Witness for C9: a concrete one-show store; the show lands in exactly one
section. -/
theorem schedule_sections_exclusive_witness :
    (([floorShow].map Show.tmdbId).Nodup) ∧
      scheduleCount (scheduleToday "2024-06-01" "2024-05-25" "2024-05-18" "2024-05-02"
        floorEps [floorShow]) 500 ≤ 1 :=
  ⟨by decide,
   schedule_sections_exclusive "2024-06-01" "2024-05-25" "2024-05-18" "2024-05-02"
     floorEps [floorShow] (by decide) 500⟩

/-! ## C5 — batch seen-in counts count distinct shows -/

theorem find_map_pair (g : Int → Nat) (pid : Int) :
    ∀ l : List Int, pid ∈ l →
      (l.map (fun p => (p, g p))).find? (fun x => decide (x.1 = pid)) = some (pid, g pid) := by
  intro l
  induction l with
  | nil => intro h; simp at h
  | cons a t ih =>
    intro h
    simp only [List.map_cons, List.find?]
    by_cases ha : a = pid
    · subst ha
      simp
    · rw [decide_eq_false ha]
      rcases List.mem_cons.mp h with h1 | h1
      · exact absurd h1.symm ha
      · exact ih h1

theorem find_map_pair_none (g : Int → Nat) (pid : Int) :
    ∀ l : List Int, pid ∉ l →
      (l.map (fun p => (p, g p))).find? (fun x => decide (x.1 = pid)) = none := by
  intro l
  induction l with
  | nil => intro _; rfl
  | cons a t ih =>
    intro h
    simp only [List.mem_cons, not_or] at h
    obtain ⟨ha, ht⟩ := h
    simp only [List.map_cons, List.find?]
    rw [decide_eq_false (fun hh => ha hh.symm)]
    exact ih ht

/-- C5: the count the batch seen-in query yields for each requested person is
the number of *distinct* watched shows in that person's credit rows — duplicate
credit rows for the same show count once — with the excluded show id omitted. -/
theorem seenInCounts_distinct (personIds : List Int) (excludeShowId : Option Int)
    (credits : List PersonCredit) (eps : List Episode) (pid : Int)
    (hp : pid ∈ personIds) :
    lookupCount (seenInCounts personIds excludeShowId credits eps) pid =
      seenInCountSpec pid excludeShowId credits eps := by
  have hne : personIds.isEmpty = false := by
    cases personIds
    · simp at hp
    · rfl
  unfold seenInCounts lookupCount seenInCountSpec
  rw [hne]
  simp only [Bool.false_eq_true, if_false]
  have hpt : ∀ c ∈ credits,
      (decide (c.personTmdbId = pid) && seenInRowKept personIds excludeShowId eps c) =
        (decide (c.personTmdbId = pid) && isWatchedShow eps c.showTmdbId &&
          (match excludeShowId with
           | some x => decide (c.showTmdbId ≠ x)
           | none => true)) := by
    intro c _
    unfold seenInRowKept
    by_cases hcp : c.personTmdbId = pid
    · have hm : decide (c.personTmdbId ∈ personIds) = true := by
        rw [hcp]
        exact decide_eq_true hp
      rw [hcp] at hm ⊢
      cases hw : isWatchedShow eps c.showTmdbId <;>
        cases hx : (match excludeShowId with
           | some x => decide (c.showTmdbId ≠ x)
           | none => true) <;>
          simp [hm, hw, hx]
    · simp [hcp]
  by_cases hmem : pid ∈ ((credits.filter (seenInRowKept personIds excludeShowId eps)).map
      (·.personTmdbId)).dedup
  · rw [find_map_pair _ pid _ hmem]
    simp only []
    rw [List.filter_filter, List.filter_congr hpt]
  · rw [find_map_pair_none _ pid _ hmem]
    have hnil : credits.filter (fun c =>
        decide (c.personTmdbId = pid) && isWatchedShow eps c.showTmdbId &&
          (match excludeShowId with
           | some x => decide (c.showTmdbId ≠ x)
           | none => true)) = [] := by
      apply List.filter_eq_nil_iff.mpr
      intro c hc hcp
      simp only [Bool.and_eq_true, decide_eq_true_eq] at hcp
      apply hmem
      rw [List.mem_dedup]
      apply List.mem_map.mpr
      refine ⟨c, ?_, hcp.1.1⟩
      rw [List.mem_filter]
      refine ⟨hc, ?_⟩
      unfold seenInRowKept
      rw [hcp.1.1, Bool.and_eq_true, Bool.and_eq_true]
      exact ⟨⟨decide_eq_true hp, hcp.1.2⟩, hcp.2⟩
    rw [hnil]
    rfl

/-- Person 42 has two credit rows for show 100 (malformed duplicate across
media types) and one for show 200. -/
def dupCredits : List PersonCredit :=
  [⟨42, 100, "Alpha", "X", "tv"⟩, ⟨42, 100, "Alpha", "X", "movie"⟩,
   ⟨42, 200, "Beta", "Y", "tv"⟩]

/-- Shows 100 and 200 each have one watched episode. -/
def dupEps : List Episode :=
  [⟨1, 100, 1, 1, none, none, true, some "2024-01-01"⟩,
   ⟨2, 200, 1, 1, none, none, true, some "2024-01-02"⟩]

/-- Witness for C5: with the duplicate rows and show 200 excluded, the count is
1 (distinct shows minus the excluded one), not the credit-row count. -/
theorem seenInCounts_distinct_witness :
    (42 : Int) ∈ [(42 : Int)] ∧
      lookupCount (seenInCounts [42] (some 200) dupCredits dupEps) 42 =
        seenInCountSpec 42 (some 200) dupCredits dupEps ∧
      lookupCount (seenInCounts [42] (some 200) dupCredits dupEps) 42 = 1 :=
  ⟨by decide,
   seenInCounts_distinct [42] (some 200) dupCredits dupEps 42 (by decide),
   by decide⟩

/-! ## C6 — seen-in returns exactly the watched-show credits, ordered by title -/

/-- Person 42, credits already cached. -/
def scenPerson : Person := ⟨42, "Jane Doe", none, some "2024-01-01T00:00:00+00:00"⟩

def scenPeople : List Person := [scenPerson]

/-- Person 42 has credits for shows 100, 200 and 300. -/
def scenCredits : List PersonCredit :=
  [⟨42, 100, "Alpha", "X", "tv"⟩, ⟨42, 200, "Beta", "Y", "tv"⟩,
   ⟨42, 300, "Gamma", "Z", "movie"⟩]

/-- Only show 100 is locally tracked (with a poster). -/
def scenShows : List Show := [⟨1, 100, "Alpha", some "/p100", some "binging", none⟩]

/-- Only show 100 has a watched episode. -/
def scenEps : List Episode :=
  [⟨1, 100, 1, 1, none, none, true, some "2024-01-01"⟩,
   ⟨1, 100, 1, 2, none, none, false, none⟩,
   ⟨9, 200, 1, 1, none, none, false, none⟩]

/-- C6: for a locally-known person with cached credits, `seen_in` succeeds and
returns exactly (up to the title ordering) the person's credit rows whose show
has at least one watched episode, sorted by title, each annotated with the
locally-known show's poster (null when the show is not tracked); concretely,
person 42 with credits for shows 100, 200, 300 of which only 100 has a watched
episode yields exactly one entry, for show 100. -/
theorem seenIn_watched_credits :
    (∀ (fetch : Option (List CreditEntry)) (now : String) (pid : Int)
        (people : List Person) (credits : List PersonCredit) (shows : List Show)
        (eps : List Episode) (person : Person),
        people.find? (fun q => decide (q.tmdbId = pid)) = some person →
        pyTruthy person.creditsCachedAt = true →
        ∃ entries, seenIn fetch now pid people credits shows eps = .ok entries ∧
          entries.Perm ((credits.filter (fun c =>
              decide (c.personTmdbId = pid) && isWatchedShow eps c.showTmdbId)).map
            (fun c => ⟨c.showTmdbId, c.title, c.character, c.type,
              posterOf shows c.showTmdbId⟩)) ∧
          entries.Pairwise (fun a b => strLeB a.title b.title = true) ∧
          (∀ en ∈ entries, en.posterPath = posterOf shows en.tmdbId)) ∧
    seenIn none "2024-06-01T00:00:00+00:00" 42 scenPeople scenCredits scenShows scenEps =
      .ok [⟨100, "Alpha", "X", "tv", some "/p100"⟩] := by
  constructor
  · intro fetch now pid people credits shows eps person hfind hcached
    have hok : ensurePersonCreditsCached fetch now person people credits =
        .ok (people, credits, 0) := by
      unfold ensurePersonCreditsCached
      rw [if_pos hcached]
    have hrun : seenIn fetch now pid people credits shows eps =
        .ok (seenInQuery pid credits shows eps) := by
      unfold seenIn
      rw [hfind]
      simp only [hok]
    rw [hrun]
    refine ⟨seenInQuery pid credits shows eps, rfl, ?_, ?_, ?_⟩
    · unfold seenInQuery
      exact (List.perm_insertionSort creditTitleLe _).map _
    · unfold seenInQuery
      exact (List.sorted_insertionSort creditTitleLe _).map _ (fun a b h => h)
    · intro en hen
      unfold seenInQuery at hen
      rw [List.mem_map] at hen
      obtain ⟨c, _, hc⟩ := hen
      rw [← hc]
  · decide

/-- Witness for C6 at the concrete scenario store. -/
theorem seenIn_watched_credits_witness :
    ∃ entries, seenIn none "2024-06-01T00:00:00+00:00" 42 scenPeople scenCredits
        scenShows scenEps = .ok entries ∧
      entries.Perm ((scenCredits.filter (fun c =>
          decide (c.personTmdbId = 42) && isWatchedShow scenEps c.showTmdbId)).map
        (fun c => ⟨c.showTmdbId, c.title, c.character, c.type,
          posterOf scenShows c.showTmdbId⟩)) ∧
      entries.Pairwise (fun a b => strLeB a.title b.title = true) ∧
      (∀ en ∈ entries, en.posterPath = posterOf scenShows en.tmdbId) :=
  seenIn_watched_credits.1 none "2024-06-01T00:00:00+00:00" 42 scenPeople scenCredits
    scenShows scenEps scenPerson (by decide) (by decide)

/-! ## C8 — the person-credits cache marker is written last -/

/-- Logical uniqueness of `(person, show)` pairs in the credits table. -/
def pairNodup (l : List PersonCredit) : Prop :=
  (l.map (fun r => (r.personTmdbId, r.showTmdbId))).Nodup

theorem insertCredit_extends (person : Person) (acc : List PersonCredit) (c : CreditEntry) :
    acc <+: insertCredit person acc c := by
  obtain ⟨cid, cmt, cname, ctitle, cchar⟩ := c
  unfold insertCredit
  split
  · exact List.prefix_refl _
  · cases cid with
    | none => exact List.prefix_refl _
    | some sid =>
      dsimp only
      split
      · exact List.prefix_refl _
      · exact ⟨_, rfl⟩

theorem foldl_insertCredit_extends (person : Person) :
    ∀ (entries : List CreditEntry) (acc : List PersonCredit),
      acc <+: entries.foldl (insertCredit person) acc
  | [], acc => List.prefix_refl acc
  | c :: cs, acc =>
    (insertCredit_extends person acc c).trans (foldl_insertCredit_extends person cs _)

theorem mem_insertCredit {person : Person} {acc : List PersonCredit} {c : CreditEntry}
    {r : PersonCredit} (hr : r ∈ insertCredit person acc c) :
    r ∈ acc ∨ r.personTmdbId = person.tmdbId := by
  obtain ⟨cid, cmt, cname, ctitle, cchar⟩ := c
  unfold insertCredit at hr
  split at hr
  · exact Or.inl hr
  · cases cid with
    | none => exact Or.inl hr
    | some sid =>
      dsimp only at hr
      split at hr
      · exact Or.inl hr
      · rcases List.mem_append.mp hr with h | h
        · exact Or.inl h
        · simp only [List.mem_singleton] at h
          subst h
          exact Or.inr rfl

theorem mem_foldl_insertCredit (person : Person) :
    ∀ (entries : List CreditEntry) (acc : List PersonCredit) (r : PersonCredit),
      r ∈ entries.foldl (insertCredit person) acc →
      r ∈ acc ∨ r.personTmdbId = person.tmdbId := by
  intro entries
  induction entries with
  | nil => intro acc r hr; exact Or.inl hr
  | cons c cs ih =>
    intro acc r hr
    rcases ih _ r hr with h | h
    · exact mem_insertCredit h
    · exact Or.inr h

theorem insertCredit_pairNodup (person : Person) (acc : List PersonCredit)
    (c : CreditEntry) (h : pairNodup acc) : pairNodup (insertCredit person acc c) := by
  obtain ⟨cid, cmt, cname, ctitle, cchar⟩ := c
  unfold insertCredit
  split
  · exact h
  · cases cid with
    | none => exact h
    | some sid =>
      dsimp only
      split
      · exact h
      · rename_i hdup
        unfold pairNodup at h ⊢
        rw [List.map_append, List.nodup_append]
        refine ⟨h, List.nodup_singleton _, ?_⟩
        intro a ha
        simp only [List.map_singleton, List.mem_singleton]
        intro heq
        rw [List.mem_map] at ha
        obtain ⟨r, hr, hra⟩ := ha
        apply hdup
        rw [List.any_eq_true]
        refine ⟨r, hr, ?_⟩
        rw [heq] at hra
        have h1 : r.personTmdbId = person.tmdbId := congrArg Prod.fst hra
        have h2 : r.showTmdbId = sid := congrArg Prod.snd hra
        exact decide_eq_true ⟨h1, h2⟩

theorem foldl_insertCredit_pairNodup (person : Person) :
    ∀ (entries : List CreditEntry) (acc : List PersonCredit),
      pairNodup acc → pairNodup (entries.foldl (insertCredit person) acc)
  | [], _, h => h
  | c :: cs, acc, h =>
    foldl_insertCredit_pairNodup person cs _ (insertCredit_pairNodup person acc c h)

/-- C8: once `credits_cached_at` is truthy the operation is a no-op with zero
fetches; a fetch failure raises with nothing committed (marker still null,
credits unchanged), so a retry starts from the same state; and on success the
credit rows (all for this person, `(person, show)`-deduplicated) and the
`credits_cached_at` marker are committed together in the one result — the
marker is never set without the rows. -/
theorem creditsMarker_last :
    (∀ (fetch : Option (List CreditEntry)) (now : String) (person : Person)
        (people : List Person) (credits : List PersonCredit),
        pyTruthy person.creditsCachedAt = true →
        ensurePersonCreditsCached fetch now person people credits = .ok (people, credits, 0)) ∧
    (∀ (now : String) (person : Person) (people : List Person) (credits : List PersonCredit),
        pyTruthy person.creditsCachedAt = false →
        ensurePersonCreditsCached none now person people credits = .error ()) ∧
    (∀ (entries : List CreditEntry) (now : String) (person : Person)
        (people : List Person) (credits : List PersonCredit),
        pyTruthy person.creditsCachedAt = false →
        ∃ credits',
          ensurePersonCreditsCached (some entries) now person people credits =
            .ok (people.map (fun q =>
              if q.tmdbId = person.tmdbId then { q with creditsCachedAt := some now }
              else q), credits', 1) ∧
          credits <+: credits' ∧
          (∀ r ∈ credits', r ∉ credits → r.personTmdbId = person.tmdbId) ∧
          (pairNodup credits → pairNodup credits')) := by
  refine ⟨?_, ?_, ?_⟩
  · intro fetch now person people credits h
    unfold ensurePersonCreditsCached
    rw [if_pos h]
  · intro now person people credits h
    unfold ensurePersonCreditsCached
    rw [if_neg (by simp [h])]
  · intro entries now person people credits h
    refine ⟨entries.foldl (insertCredit person) credits, ?_, ?_, ?_, ?_⟩
    · unfold ensurePersonCreditsCached
      rw [if_neg (by simp [h])]
    · exact foldl_insertCredit_extends person entries credits
    · intro r hr hnot
      rcases mem_foldl_insertCredit person entries credits r hr with h1 | h1
      · exact absurd h1 hnot
      · exact h1
    · intro hnd
      exact foldl_insertCredit_pairNodup person entries credits hnd

/-- A person whose credits are not yet cached. -/
def freshPerson : Person := ⟨77, "John Smith", none, none⟩

/-- A combined-credits payload with a duplicate `(person, show)` pair, a falsy
id, a non-tv/movie media type, and a missing id. -/
def freshEntries : List CreditEntry :=
  [⟨some 100, some "tv", some "Alpha", none, some "X"⟩,
   ⟨some 100, some "movie", some "Alpha", none, some "X"⟩,
   ⟨some 0, some "tv", some "Bad", none, none⟩,
   ⟨some 300, some "person", some "NotMedia", none, none⟩,
   ⟨none, some "tv", none, none, none⟩]

/-- Witness for C8: a successful fetch for an uncached person commits the
filtered, deduplicated rows together with the marker. -/
theorem creditsMarker_last_witness :
    ∃ credits',
      ensurePersonCreditsCached (some freshEntries) "2024-05-01T00:00:00+00:00"
          freshPerson [freshPerson] [] =
        .ok ([freshPerson].map (fun q =>
          if q.tmdbId = freshPerson.tmdbId then
            { q with creditsCachedAt := some "2024-05-01T00:00:00+00:00" }
          else q), credits', 1) ∧
      ([] : List PersonCredit) <+: credits' ∧
      (∀ r ∈ credits', r ∉ ([] : List PersonCredit) →
        r.personTmdbId = freshPerson.tmdbId) ∧
      (pairNodup [] → pairNodup credits') :=
  creditsMarker_last.2.2 freshEntries "2024-05-01T00:00:00+00:00" freshPerson
    [freshPerson] [] (by decide)

end Whist
